import Mathlib

/-!
Shallow embedding of `src/LoadBalancing/gateway.py` (FastAPI gateway with
round-robin load balancing and an in-memory sliding-window rate limiter),
together with theorems settling the frozen claims about it.

Python machine integers and floats: the timestamps produced by `time.time()`
are modelled as `Int` instants (the claims only involve integer arithmetic on
times, and `now - t < window` on `Int` matches the Python comparison exactly).
The `defaultdict(list)` is modelled as an insertion-ordered association list;
a defaultdict read inserts an empty list for a missing key, as in Python.
-/

namespace Gateway

/-- State of the `LoadBalancer` class: the configured `services` list, the
round-robin cursor `current_index`, and the mutable `healthy_services` list. -/
structure LoadBalancer where
  services : List String
  current_index : Nat
  healthy_services : List String
deriving Repr, DecidableEq

/-- Constructor `LoadBalancer.__init__`: healthy list starts as a copy of the
configured services, cursor at 0. -/
def LoadBalancer.init (services : List String) : LoadBalancer :=
  { services := services, current_index := 0, healthy_services := services }

/-- The error raised by `get_next_service` (HTTPException 503). -/
inductive LBError where
  | NoHealthyEndpoints
deriving Repr, DecidableEq

/-- Method `LoadBalancer.get_next_service`: raise 503 when no healthy services
(leaving the state untouched); otherwise return
`healthy_services[current_index % len(healthy_services)]` and increment
`current_index`. The returned state is paired with the result; on the error
path the state is returned unchanged, as the Python exception leaves it. -/
def LoadBalancer.get_next_service (lb : LoadBalancer) :
    Except LBError String × LoadBalancer :=
  if lb.healthy_services.isEmpty then
    (Except.error LBError.NoHealthyEndpoints, lb)
  else
    (Except.ok (lb.healthy_services.getD
        (lb.current_index % lb.healthy_services.length) ""),
     { lb with current_index := lb.current_index + 1 })

/-- Method `LoadBalancer.mark_unhealthy`: remove the service from the healthy list
when present (Python `list.remove` deletes the first occurrence); no-op
otherwise. -/
def LoadBalancer.mark_unhealthy (lb : LoadBalancer) (service : String) :
    LoadBalancer :=
  if service ∈ lb.healthy_services then
    { lb with healthy_services := lb.healthy_services.erase service }
  else lb

/-- Method `LoadBalancer.mark_healthy`: append the service at the end of the healthy
list when it is configured and not already healthy; no-op otherwise. -/
def LoadBalancer.mark_healthy (lb : LoadBalancer) (service : String) :
    LoadBalancer :=
  if service ∉ lb.healthy_services ∧ service ∈ lb.services then
    { lb with healthy_services := lb.healthy_services ++ [service] }
  else lb

/-- The JSON returned by `LoadBalancer.get_service_status`. -/
structure ServiceStatus where
  total_services : Nat
  healthy_count : Nat
  statuses : List (String × Bool)
deriving Repr, DecidableEq

/-- Method `LoadBalancer.get_service_status`: read-only summary of the pool. -/
def LoadBalancer.get_service_status (lb : LoadBalancer) : ServiceStatus :=
  { total_services := lb.services.length
    healthy_count := lb.healthy_services.length
    statuses := lb.services.map (fun s => (s, lb.healthy_services.contains s)) }

/-- Iterate `get_next_service` `n` times, collecting the successful results in
order (an error stops the iteration, which never happens while the healthy
list is nonempty). -/
def nextServices : LoadBalancer → Nat → List String × LoadBalancer
  | lb, 0 => ([], lb)
  | lb, n + 1 =>
    match lb.get_next_service with
    | (Except.error _, lb1) => ([], lb1)
    | (Except.ok s, lb1) =>
      let rest := nextServices lb1 n
      (s :: rest.1, rest.2)

/-! ### Rate limiter -/

/-- The `defaultdict(str → list of timestamps)` of the limiter, as an
insertion-ordered association list. -/
abbrev ReqMap := List (String × List Int)

/-- Write `m[k] = v`: overwrite the (unique) binding in place when the key
exists, append the binding at the end otherwise (Python dict insertion
order). -/
def ddSet (m : ReqMap) (k : String) (v : List Int) : ReqMap :=
  match m with
  | [] => [(k, v)]
  | (k1, v1) :: rest =>
    if k = k1 then (k1, v) :: rest else (k1, v1) :: ddSet rest k v

/-- A bare `defaultdict` read of `m[k]`: inserts `(k, [])` when the key is
missing, as Python `defaultdict(list).__getitem__` does. -/
def ddTouch (m : ReqMap) (k : String) : ReqMap :=
  match m with
  | [] => [(k, [])]
  | (k1, v1) :: rest =>
    if k = k1 then (k1, v1) :: rest else (k1, v1) :: ddTouch rest k

/-- Python `min` over a nonempty list (the `[]` case is never reached by the
code, which guards on emptiness first). -/
def listMin : List Int → Int
  | [] => 0
  | t :: ts => ts.foldl min t

/-- State of the `RateLimiter` class. -/
structure RateLimiter where
  max_requests : Nat
  window_seconds : Int
  requests : ReqMap
deriving Repr, DecidableEq

/-- Constructor `RateLimiter.__init__`. -/
def RateLimiter.init (max_requests : Nat) (window_seconds : Int) : RateLimiter :=
  { max_requests := max_requests, window_seconds := window_seconds, requests := [] }

/-- The pruned timestamp list for a client at instant `now`: the stored
timestamps `t` with `now - t < window_seconds` (an absent client reads as the
empty list, per `defaultdict`). -/
def RateLimiter.pruned (rl : RateLimiter) (client_ip : String) (now : Int) :
    List Int :=
  ((rl.requests.lookup client_ip).getD []).filter
    (fun t => now - t < rl.window_seconds)

/-- Method `RateLimiter.is_allowed`: store the pruned list; reject when its length
reaches `max_requests` (without recording the attempt); otherwise append `now`
and accept. `now` stands for `time.time()`. -/
def RateLimiter.is_allowed (rl : RateLimiter) (client_ip : String) (now : Int) :
    Bool × RateLimiter :=
  let kept := rl.pruned client_ip now
  if rl.max_requests ≤ kept.length then
    (false, { rl with requests := ddSet rl.requests client_ip kept })
  else
    (true, { rl with requests := ddSet rl.requests client_ip (kept ++ [now]) })

/-- Method `RateLimiter.get_remaining_requests`: store the pruned list and return
`max(0, max_requests - len(pruned))` (automatic with `Nat` subtraction). -/
def RateLimiter.get_remaining_requests (rl : RateLimiter) (client_ip : String)
    (now : Int) : Nat × RateLimiter :=
  let kept := rl.pruned client_ip now
  (rl.max_requests - kept.length,
   { rl with requests := ddSet rl.requests client_ip kept })

/-- Method `RateLimiter.get_reset_time`: WITHOUT pruning, return 0 when the client
stored list is empty, else `max(0, min(stored) + window_seconds - now)`. The
only state change is the `defaultdict` read inserting a missing key. -/
def RateLimiter.get_reset_time (rl : RateLimiter) (client_ip : String)
    (now : Int) : Int × RateLimiter :=
  let cur := (rl.requests.lookup client_ip).getD []
  let rl1 := { rl with requests := ddTouch rl.requests client_ip }
  if cur.isEmpty then (0, rl1)
  else (max 0 (listMin cur + rl.window_seconds - now), rl1)

/-! ### Middleware and request handlers -/

/-- Paths exempted from rate limiting by `rate_limit_middleware`. -/
def skippedPaths : List String := ["/", "/health", "/services"]

/-- Observable outcome of the rate-limit middleware: pass-through for exempt
paths, a forwarded response with rate-limit headers, or a 429 rejection. -/
inductive MWResponse where
  | skipped
  | forwarded (remaining : Nat) (reset : Int)
  | tooMany (remaining : Nat) (reset : Int)
deriving Repr, DecidableEq

/-- Middleware `rate_limit_middleware`: exempt paths bypass the limiter entirely; other
paths consult `is_allowed` and then compute the remaining/reset header values
(in that order, mutating the limiter each time, as the Python does). -/
def rate_limit_middleware (rl : RateLimiter) (path client_ip : String)
    (now : Int) : MWResponse × RateLimiter :=
  if path ∈ skippedPaths then (MWResponse.skipped, rl)
  else
    let a := rl.is_allowed client_ip now
    let rem := a.2.get_remaining_requests client_ip now
    let rst := rem.2.get_reset_time client_ip now
    if a.1 then (MWResponse.forwarded rem.1 rst.1, rst.2)
    else (MWResponse.tooMany rem.1 rst.1, rst.2)

/-- Environment outcome of forwarding a request to the selected backend:
an HTTP response with a status code, a transport-level failure
(`httpx.RequestError`), or any other exception (e.g. a non-JSON body). -/
inductive ForwardOutcome where
  | httpResponse (status : Nat)
  | requestError
  | otherError
deriving Repr, DecidableEq

/-- Result of `proxy_request` as seen by the client. -/
inductive ProxyResult where
  | noHealthy
  | backend (status : Nat) (target : String)
  | unavailable (target : String)
  | internalError
deriving Repr, DecidableEq

/-- HTTP status code of each `proxy_request` result. -/
def ProxyResult.status : ProxyResult → Nat
  | ProxyResult.noHealthy => 503
  | ProxyResult.backend s _ => s
  | ProxyResult.unavailable _ => 503
  | ProxyResult.internalError => 500

/-- Handler `proxy_request`: select one backend via `get_next_service` (503 when none
healthy); on a transport failure mark that backend unhealthy and raise 503
naming it, with no second selection; on any other exception raise 500 without
touching the pool. -/
def proxy_request (lb : LoadBalancer) (outcome : ForwardOutcome) :
    ProxyResult × LoadBalancer :=
  match lb.get_next_service with
  | (Except.error _, lb1) => (ProxyResult.noHealthy, lb1)
  | (Except.ok target, lb1) =>
    match outcome with
    | ForwardOutcome.httpResponse st => (ProxyResult.backend st target, lb1)
    | ForwardOutcome.requestError =>
        (ProxyResult.unavailable target, lb1.mark_unhealthy target)
    | ForwardOutcome.otherError => (ProxyResult.internalError, lb1)

/-- The rate-limiting fields of the `/stats` response, and the limiter state
after building it (`get_remaining_requests` then `get_reset_time`). -/
def get_stats (rl : RateLimiter) (lb : LoadBalancer) (client_ip : String)
    (now : Int) : (Nat × Int × Nat × Int × Nat) × RateLimiter :=
  let rem := rl.get_remaining_requests client_ip now
  let rst := rem.2.get_reset_time client_ip now
  ((rl.max_requests, rl.window_seconds, rem.1, rst.1, lb.current_index), rst.2)

end Gateway

namespace Gateway

/-- C7: from a fresh pool [A, B, C], three calls yield A, B, C; after
`mark_unhealthy B` the next two calls yield C then A; after `mark_healthy B`
the next call yields B. -/
theorem c7_scenario_abc :
    (nextServices (LoadBalancer.init ["A", "B", "C"]) 3).1 =
      ["A", "B", "C"] ∧
    (nextServices
      ((nextServices (LoadBalancer.init ["A", "B", "C"]) 3).2.mark_unhealthy
        "B") 2).1 = ["C", "A"] ∧
    (nextServices
      ((nextServices
        ((nextServices (LoadBalancer.init ["A", "B", "C"]) 3).2.mark_unhealthy
          "B") 2).2.mark_healthy "B") 1).1 = ["B"] := by
  decide

/-! ### Association-list lemmas for the defaultdict model -/

theorem lookup_ddSet_self (m : ReqMap) (k : String) (v : List Int) :
    (ddSet m k v).lookup k = some v := by
  induction m with
  | nil => simp [ddSet, List.lookup]
  | cons p rest ih =>
    obtain ⟨k1, v1⟩ := p
    by_cases h : k = k1
    · subst h
      simp [ddSet, List.lookup]
    · have hb : (k == k1) = false := by simp [h]
      simp [ddSet, h, List.lookup, hb, ih]

theorem lookup_ddTouch_self (m : ReqMap) (k : String) :
    (ddTouch m k).lookup k = some ((m.lookup k).getD []) := by
  induction m with
  | nil => simp [ddTouch, List.lookup]
  | cons p rest ih =>
    obtain ⟨k1, v1⟩ := p
    by_cases h : k = k1
    · subst h
      simp [ddTouch, List.lookup]
    · have hb : (k == k1) = false := by simp [h]
      simp [ddTouch, h, List.lookup, hb, ih]

/-! ### C2: the sliding-window admission algorithm -/

/-- C2: `is_allowed` prunes the client stored timestamps to those with
`now - t < window_seconds`, rejects without recording when the pruned count
reaches `max_requests`, and otherwise records `now` and accepts; with
`max_requests = 5, window_seconds = 60`, five calls at instant 0 all succeed,
a sixth at instant 0 fails, and a call at instant 60 succeeds again. -/
theorem c2_is_allowed_behavior (rl : RateLimiter) (c : String) (now : Int) :
    ((rl.is_allowed c now).1 =
      decide ((rl.pruned c now).length < rl.max_requests)) ∧
    ((rl.is_allowed c now).2.requests.lookup c =
      some (if (rl.pruned c now).length < rl.max_requests
            then rl.pruned c now ++ [now] else rl.pruned c now)) ∧
    (let rl0 := RateLimiter.init 5 60
     let s1 := rl0.is_allowed "c" 0
     let s2 := s1.2.is_allowed "c" 0
     let s3 := s2.2.is_allowed "c" 0
     let s4 := s3.2.is_allowed "c" 0
     let s5 := s4.2.is_allowed "c" 0
     let s6 := s5.2.is_allowed "c" 0
     let s7 := s6.2.is_allowed "c" 60
     s1.1 = true ∧ s2.1 = true ∧ s3.1 = true ∧ s4.1 = true ∧ s5.1 = true ∧
       s6.1 = false ∧ s7.1 = true) := by
  refine ⟨?_, ?_, by decide⟩
  · by_cases h : rl.max_requests ≤ (rl.pruned c now).length
    · simp [RateLimiter.is_allowed, h, Nat.not_lt.mpr h]
    · simp [RateLimiter.is_allowed, h, Nat.lt_of_not_le h]
  · by_cases h : rl.max_requests ≤ (rl.pruned c now).length
    · simp [RateLimiter.is_allowed, h, Nat.not_lt.mpr h, lookup_ddSet_self]
    · simp [RateLimiter.is_allowed, h, Nat.lt_of_not_le h, lookup_ddSet_self]

/-! ### C9: selection changes nothing but the cursor -/

/-- C9: `get_next_service` leaves the whole state unchanged when it fails,
and on success changes the cursor by exactly one, never touching the healthy
or configured lists. -/
theorem c9_selection_frame (lb : LoadBalancer) :
    ((lb.get_next_service).2 =
      (if lb.healthy_services.isEmpty then lb
       else { lb with current_index := lb.current_index + 1 })) ∧
    (lb.get_next_service).2.services = lb.services ∧
    (lb.get_next_service).2.healthy_services = lb.healthy_services := by
  unfold LoadBalancer.get_next_service
  by_cases h : lb.healthy_services.isEmpty <;> simp [h]

/-! ### C10: limiter queries on a fresh client -/

/-- C10: for a client with no recorded entry, `get_remaining_requests`
returns `max_requests` and `get_reset_time` returns 0, yet each of
`is_allowed`, `get_remaining_requests` and `get_reset_time` inserts an entry
for the client into the map (defaultdict access). -/
theorem c10_fresh_client_queries (rl : RateLimiter) (c : String) (now : Int)
    (h : rl.requests.lookup c = none) :
    (rl.get_remaining_requests c now).1 = rl.max_requests ∧
    (rl.get_reset_time c now).1 = 0 ∧
    ((rl.is_allowed c now).2.requests.lookup c).isSome = true ∧
    ((rl.get_remaining_requests c now).2.requests.lookup c).isSome = true ∧
    ((rl.get_reset_time c now).2.requests.lookup c).isSome = true := by
  refine ⟨?_, ?_, ?_, ?_, ?_⟩
  · simp [RateLimiter.get_remaining_requests, RateLimiter.pruned, h]
  · simp [RateLimiter.get_reset_time, h]
  · unfold RateLimiter.is_allowed
    by_cases hm : rl.max_requests ≤ (rl.pruned c now).length <;>
      simp [hm, lookup_ddSet_self]
  · simp [RateLimiter.get_remaining_requests, lookup_ddSet_self]
  · simp [RateLimiter.get_reset_time, lookup_ddTouch_self, h]

theorem c10_fresh_client_queries_witness :
    (RateLimiter.init 5 60).requests.lookup "c" = none ∧
    (((RateLimiter.init 5 60).get_remaining_requests "c" 0).1 = 5 ∧
     ((RateLimiter.init 5 60).get_reset_time "c" 0).1 = 0 ∧
     (((RateLimiter.init 5 60).is_allowed "c" 0).2.requests.lookup
        "c").isSome = true ∧
     (((RateLimiter.init 5 60).get_remaining_requests "c" 0).2.requests.lookup
        "c").isSome = true ∧
     (((RateLimiter.init 5 60).get_reset_time "c" 0).2.requests.lookup
        "c").isSome = true) :=
  ⟨by decide, c10_fresh_client_queries (RateLimiter.init 5 60) "c" 0 (by decide)⟩

/-! ### Concrete limiter states used in counterexamples and witnesses -/

/-- A limiter state holding five in-window timestamps for client `c`. -/
def rlFull : RateLimiter :=
  { max_requests := 5, window_seconds := 60,
    requests := [("c", [0, 0, 0, 0, 0])] }

/-- A limiter state holding one expired and one surviving timestamp for
client `c` (as seen at instant 70 with window 60). -/
def rlStale : RateLimiter :=
  { max_requests := 5, window_seconds := 60, requests := [("c", [0, 50])] }

/-- A limiter state holding a single timestamp for client `c`. -/
def rlOne : RateLimiter :=
  { max_requests := 5, window_seconds := 60, requests := [("c", [0])] }

/-! ### C8: health transitions are guarded and idempotent -/

/-- C8: `mark_unhealthy` removes the endpoint from the healthy list when
present and is a no-op otherwise, never touching the configured list;
`mark_healthy` appends at the end exactly when the endpoint is configured and
not already healthy; both are idempotent (on states whose healthy list is
duplicate-free, which every reachable state is). -/
theorem c8_mark_idempotent (lb : LoadBalancer) (e : String)
    (hnd : lb.healthy_services.Nodup) :
    (lb.mark_unhealthy e).services = lb.services ∧
    (lb.mark_healthy e).services = lb.services ∧
    (lb.mark_unhealthy e).healthy_services =
      (if e ∈ lb.healthy_services then lb.healthy_services.erase e
       else lb.healthy_services) ∧
    (lb.mark_healthy e).healthy_services =
      (if e ∉ lb.healthy_services ∧ e ∈ lb.services
       then lb.healthy_services ++ [e] else lb.healthy_services) ∧
    (lb.mark_unhealthy e).mark_unhealthy e = lb.mark_unhealthy e ∧
    (lb.mark_healthy e).mark_healthy e = lb.mark_healthy e := by
  refine ⟨?_, ?_, ?_, ?_, ?_, ?_⟩
  · unfold LoadBalancer.mark_unhealthy; split <;> rfl
  · unfold LoadBalancer.mark_healthy; split <;> rfl
  · unfold LoadBalancer.mark_unhealthy; split <;> simp_all
  · unfold LoadBalancer.mark_healthy; split <;> simp_all
  · by_cases he : e ∈ lb.healthy_services
    · simp [LoadBalancer.mark_unhealthy, he, hnd.not_mem_erase]
    · simp [LoadBalancer.mark_unhealthy, he]
  · by_cases hc : e ∉ lb.healthy_services ∧ e ∈ lb.services
    · simp [LoadBalancer.mark_healthy, hc]
    · simp [LoadBalancer.mark_healthy, hc]

theorem c8_mark_idempotent_witness :
    (LoadBalancer.init ["A", "B"]).healthy_services.Nodup ∧
    (((LoadBalancer.init ["A", "B"]).mark_unhealthy "A").mark_unhealthy "A" =
        (LoadBalancer.init ["A", "B"]).mark_unhealthy "A" ∧
      ((LoadBalancer.init ["A", "B"]).mark_healthy "A").mark_healthy "A" =
        (LoadBalancer.init ["A", "B"]).mark_healthy "A") :=
  ⟨by decide,
   ⟨(c8_mark_idempotent (LoadBalancer.init ["A", "B"]) "A" (by decide)).2.2.2.2.1,
    (c8_mark_idempotent (LoadBalancer.init ["A", "B"]) "A" (by decide)).2.2.2.2.2⟩⟩

/-! ### C5: what the pool operations really preserve -/

/-- The invariant the pool operations do preserve: the healthy list is
duplicate-free and contained in the configured list. (`get_service_status`
is a pure read in the embedding, so it trivially preserves any state
predicate.) -/
def poolInv (lb : LoadBalancer) : Prop :=
  lb.healthy_services.Nodup ∧ ∀ x ∈ lb.healthy_services, x ∈ lb.services

/-- C5 counterexample: re-marking a demoted endpoint healthy appends it at
the END of the healthy list, so the healthy list is no longer a subsequence
of the configured list in its relative order. -/
theorem c5_counterexample :
    (((LoadBalancer.init ["A", "B", "C"]).mark_unhealthy "A").mark_healthy
        "A").healthy_services = ["B", "C", "A"] ∧
    ¬ ((((LoadBalancer.init ["A", "B", "C"]).mark_unhealthy "A").mark_healthy
        "A").healthy_services.Sublist
      (((LoadBalancer.init ["A", "B", "C"]).mark_unhealthy "A").mark_healthy
        "A").services) := by
  decide

/-- C5 (amended): every pool operation preserves the weaker invariant that
the healthy list is duplicate-free and contained in the configured list, and
never modifies the configured list; order preservation fails. -/
theorem c5_invariant (lb : LoadBalancer) (e : String) (h : poolInv lb) :
    poolInv (lb.get_next_service).2 ∧
    poolInv (lb.mark_unhealthy e) ∧
    poolInv (lb.mark_healthy e) ∧
    (lb.get_next_service).2.services = lb.services ∧
    (lb.mark_unhealthy e).services = lb.services ∧
    (lb.mark_healthy e).services = lb.services := by
  obtain ⟨hnd, hsub⟩ := h
  refine ⟨?_, ?_, ?_, ?_, ?_, ?_⟩
  · unfold LoadBalancer.get_next_service poolInv; split <;> exact ⟨hnd, hsub⟩
  · unfold LoadBalancer.mark_unhealthy poolInv
    split
    · exact ⟨hnd.erase e, fun x hx => hsub x (List.mem_of_mem_erase hx)⟩
    · exact ⟨hnd, hsub⟩
  · unfold LoadBalancer.mark_healthy poolInv
    split
    · rename_i hc
      constructor
      · simp [List.nodup_append, hnd, hc.1]
      · intro x hx
        rcases List.mem_append.mp hx with hx | hx
        · exact hsub x hx
        · simp only [List.mem_singleton] at hx
          exact hx ▸ hc.2
    · exact ⟨hnd, hsub⟩
  · unfold LoadBalancer.get_next_service; split <;> rfl
  · unfold LoadBalancer.mark_unhealthy; split <;> rfl
  · unfold LoadBalancer.mark_healthy; split <;> rfl

theorem c5_invariant_witness :
    poolInv (LoadBalancer.init ["A", "B"]) ∧
    poolInv ((LoadBalancer.init ["A", "B"]).mark_unhealthy "A") :=
  ⟨⟨by decide, by decide⟩,
   (c5_invariant (LoadBalancer.init ["A", "B"]) "A"
      ⟨by decide, by decide⟩).2.1⟩

/-! ### C6: which paths bypass the rate limiter -/

/-- C6 counterexample: `/stats` is not in the middleware exemption list, so
a client over its limit requesting `/stats` is answered with a 429 after the
attempt consumed limiter processing; the introspection claim fails for the
stats endpoint. -/
theorem c6_counterexample :
    ("/stats" ∉ skippedPaths) ∧
    (rate_limit_middleware rlFull "/stats" "c" 0).1 =
      MWResponse.tooMany 0 60 := by
  decide

/-- C6 (amended): the root, health and services paths bypass the limiter
entirely — never a 429, limiter state untouched; the stats path is NOT
exempt. -/
theorem c6_exempt_paths (rl : RateLimiter) (path c : String) (now : Int)
    (h : path = "/" ∨ path = "/health" ∨ path = "/services") :
    rate_limit_middleware rl path c now = (MWResponse.skipped, rl) := by
  have hmem : path ∈ skippedPaths := by
    rcases h with h | h | h <;> simp [skippedPaths, h]
  simp [rate_limit_middleware, hmem]

theorem c6_exempt_paths_witness :
    ("/" = "/" ∨ "/" = "/health" ∨ "/" = "/services") ∧
    rate_limit_middleware (RateLimiter.init 5 60) "/" "c" 0 =
      (MWResponse.skipped, RateLimiter.init 5 60) :=
  ⟨Or.inl rfl,
   c6_exempt_paths (RateLimiter.init 5 60) "/" "c" 0 (Or.inl rfl)⟩

/-! ### C4: the reset-time query does not prune -/

/-- What the spec says `reset_in` computes: prune first, then
`max(0, oldest surviving + window - now)`, and `0` when nothing survives.
Stated from the spec words, for comparison with the code of the
`get_reset_time`. -/
def reset_time_spec (rl : RateLimiter) (client_ip : String) (now : Int) :
    Int :=
  let kept := rl.pruned client_ip now
  if kept.isEmpty then 0 else max 0 (listMin kept + rl.window_seconds - now)

/-- C4 counterexample: with stored timestamps `[0, 50]`, window 60, at
`now = 70`, the oldest SURVIVING timestamp is 50 so the spec value is 40,
but the code takes the minimum over all stored timestamps (including the
expired 0) and returns 0. -/
theorem c4_counterexample :
    (rlStale.get_reset_time "c" 70).1 = 0 ∧
    reset_time_spec rlStale "c" 70 = 40 := by
  decide

/-- C4 (amended): `get_reset_time` does not prune — it returns 0 when the
client stored list is empty and otherwise `max(0, min(stored) + window -
now)` over ALL stored timestamps; its only state change is the defaultdict
read. It agrees with the spec pruned formula exactly when every stored
timestamp is still inside the window. -/
theorem c4_reset_time_no_prune (rl : RateLimiter) (c : String) (now : Int)
    (h : ∀ t ∈ (rl.requests.lookup c).getD [], now - t < rl.window_seconds) :
    ((rl.get_reset_time c now).1 =
      (if ((rl.requests.lookup c).getD []).isEmpty then 0
       else max 0 (listMin ((rl.requests.lookup c).getD [])
            + rl.window_seconds - now))) ∧
    (rl.get_reset_time c now).2.requests = ddTouch rl.requests c ∧
    (rl.get_reset_time c now).1 = reset_time_spec rl c now := by
  have hkept : rl.pruned c now = (rl.requests.lookup c).getD [] := by
    unfold RateLimiter.pruned
    exact List.filter_eq_self.mpr (fun t ht => by simpa using h t ht)
  by_cases hc : ((rl.requests.lookup c).getD []).isEmpty
  · refine ⟨?_, ?_, ?_⟩ <;>
      simp [RateLimiter.get_reset_time, reset_time_spec, hkept, hc]
  · refine ⟨?_, ?_, ?_⟩ <;>
      simp [RateLimiter.get_reset_time, reset_time_spec, hkept, hc]

theorem c4_reset_time_no_prune_witness :
    (∀ t ∈ (rlOne.requests.lookup "c").getD [],
        (10 : Int) - t < rlOne.window_seconds) ∧
    (rlOne.get_reset_time "c" 10).1 = reset_time_spec rlOne "c" 10 :=
  ⟨by decide, (c4_reset_time_no_prune rlOne "c" 10 (by decide)).2.2⟩

/-! ### C3: a transport failure demotes the selected backend -/

/-- C3: when forwarding raises a transport-level failure
(`httpx.RequestError`, covering connection refusal, timeouts, DNS failures
and protocol-level malformed responses), `proxy_request` marks the selected
backend unhealthy and answers 503 naming that backend, after exactly one
selection (no retry); for a healthy pool [A, B], after such a failure routed
to A, the next selection returns B. -/
theorem c3_transport_failure (lb : LoadBalancer)
    (h : lb.healthy_services ≠ []) :
    (proxy_request lb ForwardOutcome.requestError =
      (ProxyResult.unavailable
        (lb.healthy_services.getD
          (lb.current_index % lb.healthy_services.length) ""),
       ({ lb with current_index := lb.current_index + 1 }).mark_unhealthy
        (lb.healthy_services.getD
          (lb.current_index % lb.healthy_services.length) ""))) ∧
    (∀ t : String, (ProxyResult.unavailable t).status = 503) ∧
    (proxy_request (LoadBalancer.init ["A", "B"])
        ForwardOutcome.requestError).1 = ProxyResult.unavailable "A" ∧
    ((proxy_request (LoadBalancer.init ["A", "B"])
        ForwardOutcome.requestError).2.get_next_service).1 =
      Except.ok "B" := by
  have he : lb.healthy_services.isEmpty = false := by
    simpa [List.isEmpty_iff] using h
  refine ⟨?_, fun t => rfl, by rfl, by rfl⟩
  simp [proxy_request, LoadBalancer.get_next_service, he]

theorem c3_transport_failure_witness :
    ((LoadBalancer.init ["A", "B"]).healthy_services ≠ []) ∧
    ((proxy_request (LoadBalancer.init ["A", "B"])
        ForwardOutcome.requestError).2.get_next_service).1 =
      Except.ok "B" :=
  ⟨by decide,
   (c3_transport_failure (LoadBalancer.init ["A", "B"]) (by decide)).2.2.2⟩

/-! ### C1: round-robin selection and its cycle -/

/-- While the healthy list is nonempty, `n` iterated selections return
`healthy[(cursor + i) % len]` for `i = 0 .. n-1` and advance the cursor by
`n`, leaving everything else unchanged. -/
theorem nextServices_spec (n : Nat) :
    ∀ lb : LoadBalancer, lb.healthy_services ≠ [] →
      (nextServices lb n).1 = (List.range n).map
          (fun i => lb.healthy_services.getD
            ((lb.current_index + i) % lb.healthy_services.length) "") ∧
      (nextServices lb n).2 =
        { lb with current_index := lb.current_index + n } := by
  induction n with
  | zero =>
    intro lb _
    simp [nextServices]
  | succ n ih =>
    intro lb h
    have he : lb.healthy_services.isEmpty = false := by
      simpa [List.isEmpty_iff] using h
    have hstep : lb.get_next_service =
        (Except.ok (lb.healthy_services.getD
            (lb.current_index % lb.healthy_services.length) ""),
         { lb with current_index := lb.current_index + 1 }) := by
      simp [LoadBalancer.get_next_service, he]
    obtain ⟨ih1, ih2⟩ :=
      ih { lb with current_index := lb.current_index + 1 } h
    constructor
    · simp only [nextServices, hstep, ih1]
      rw [List.range_succ_eq_map, List.map_cons, List.map_map]
      congr 1
      apply List.map_congr_left
      intro a _
      simp only [Function.comp]
      have hx : lb.current_index + 1 + a = lb.current_index + Nat.succ a := by
        omega
      rw [hx]
    · simp only [nextServices, hstep, ih2]
      congr 1
      omega

/-- A full cycle of selections returns the rotation of the healthy list by
the starting cursor value modulo its length. -/
theorem nextServices_cycle (lb : LoadBalancer)
    (h : lb.healthy_services ≠ []) :
    (nextServices lb lb.healthy_services.length).1 =
      lb.healthy_services.rotate
        (lb.current_index % lb.healthy_services.length) := by
  have hN : 0 < lb.healthy_services.length := List.length_pos.mpr h
  rw [(nextServices_spec lb.healthy_services.length lb h).1]
  apply List.ext_get
  · simp
  · intro i hi1 hi2
    have hiN : i < lb.healthy_services.length := by simpa using hi1
    have hmod : (lb.current_index + i) % lb.healthy_services.length <
        lb.healthy_services.length := Nat.mod_lt _ hN
    rw [List.get_rotate]
    simp only [List.get_eq_getElem, List.getElem_map, List.getElem_range]
    rw [List.getD_eq_getElem?_getD, List.getElem?_eq_getElem hmod]
    simp only [Option.getD_some, List.get_eq_getElem]
    congr 1
    conv_rhs => rw [Nat.add_mod]
    rw [Nat.mod_mod_of_dvd _ dvd_rfl, ← Nat.add_mod, Nat.add_comm]

/-- C1 counterexample: with healthy pool [A, B] and cursor 1 (the state after
one selection from a fresh pool, with no health changes), the next two
selections return B then A, not the configured relative order A then B. -/
theorem c1_counterexample :
    (nextServices ((LoadBalancer.init ["A", "B"]).get_next_service).2 2).1 =
      ["B", "A"] ∧
    ((LoadBalancer.init ["A", "B"]).get_next_service).2.services.filter
      (fun s => ((LoadBalancer.init
          ["A", "B"]).get_next_service).2.healthy_services.contains s) =
      ["A", "B"] ∧
    (["B", "A"] : List String) ≠ ["A", "B"] := by
  decide

/-- C1 (amended): `get_next_service` fails with `NoHealthyEndpoints` exactly
when the healthy list is empty, otherwise returns
`healthy[cursor % len]` and increments the cursor; for a duplicate-free
healthy list of size N with no health changes, N consecutive selections
return exactly the rotation of the healthy list by `cursor % N` — each
healthy endpoint exactly once, in the healthy list cyclic order (the
configured relative order only when the rotation is trivial and the healthy
list is in configured order) — and the (N+1)-th selection returns the same
endpoint as the first. -/
theorem c1_round_robin (lb : LoadBalancer)
    (h : lb.healthy_services ≠ []) (hnd : lb.healthy_services.Nodup) :
    (∀ l : LoadBalancer,
        ((l.get_next_service).1 = Except.error LBError.NoHealthyEndpoints ↔
          l.healthy_services = [])) ∧
    (lb.get_next_service).1 =
      Except.ok (lb.healthy_services.getD
        (lb.current_index % lb.healthy_services.length) "") ∧
    (lb.get_next_service).2.current_index = lb.current_index + 1 ∧
    (nextServices lb lb.healthy_services.length).1 =
      lb.healthy_services.rotate
        (lb.current_index % lb.healthy_services.length) ∧
    (∀ s ∈ lb.healthy_services,
        (nextServices lb lb.healthy_services.length).1.count s = 1) ∧
    ((nextServices lb lb.healthy_services.length).2.get_next_service).1 =
      (lb.get_next_service).1 := by
  have he : lb.healthy_services.isEmpty = false := by
    simpa [List.isEmpty_iff] using h
  refine ⟨?_, ?_, ?_, nextServices_cycle lb h, ?_, ?_⟩
  · intro l
    unfold LoadBalancer.get_next_service
    by_cases hl : l.healthy_services.isEmpty
    · simp [hl, List.isEmpty_iff.mp hl]
    · simp only [hl]
      simp [List.isEmpty_iff] at hl
      simp [hl]
  · simp [LoadBalancer.get_next_service, he]
  · simp [LoadBalancer.get_next_service, he]
  · intro s hs
    rw [nextServices_cycle lb h]
    rw [(List.rotate_perm lb.healthy_services
      (lb.current_index % lb.healthy_services.length)).count_eq]
    exact List.count_eq_one_of_mem hnd hs
  · rw [(nextServices_spec lb.healthy_services.length lb h).2]
    simp [LoadBalancer.get_next_service, he, Nat.add_mod_right]

theorem c1_round_robin_witness :
    ((LoadBalancer.init ["A", "B", "C"]).healthy_services ≠ [] ∧
      (LoadBalancer.init ["A", "B", "C"]).healthy_services.Nodup) ∧
    (nextServices (LoadBalancer.init ["A", "B", "C"])
        (LoadBalancer.init ["A", "B", "C"]).healthy_services.length).1 =
      (LoadBalancer.init ["A", "B", "C"]).healthy_services.rotate
        ((LoadBalancer.init ["A", "B", "C"]).current_index %
          (LoadBalancer.init ["A", "B", "C"]).healthy_services.length) :=
  ⟨⟨by decide, by decide⟩,
   (c1_round_robin (LoadBalancer.init ["A", "B", "C"]) (by decide)
      (by decide)).2.2.2.1⟩

end Gateway
